import Mathlib

/-!
Verification development for the foodee-picker cloud functions
(`src/functions/src/index.ts`).  Each definition below is a shallow
embedding of the corresponding TypeScript source: pure helpers become
Lean functions, Firestore collections become association lists keyed by
document id, the push sender becomes an explicit oracle parameter, and
thrown exceptions become `Except` errors.
-/

namespace FoodeePicker

/- ## Geo module (index.ts lines 36-56) -/

/-- Coordinate pair, with the idealized real-number semantics of the
JavaScript numeric code. -/
structure GeoPoint where
  lat : ℝ
  lng : ℝ

/-- Embeds `EARTH_RADIUS_METERS = 6371000`. -/
def EARTH_RADIUS_METERS : ℝ := 6371000

/-- Embeds `toRadians = (deg) => (deg * Math.PI) / 180`. -/
noncomputable def toRadians (deg : ℝ) : ℝ := deg * Real.pi / 180

/-- Embeds `distanceBetweenMeters` (haversine great-circle distance). -/
noncomputable def distanceBetweenMeters (a b : GeoPoint) : ℝ :=
  let dLat := toRadians (b.lat - a.lat)
  let dLng := toRadians (b.lng - a.lng)
  let lat1 := toRadians a.lat
  let lat2 := toRadians b.lat
  let haversine :=
    Real.sin (dLat / 2) ^ 2 +
      Real.cos lat1 * Real.cos lat2 * Real.sin (dLng / 2) ^ 2
  2 * EARTH_RADIUS_METERS * Real.arcsin (Real.sqrt haversine)

/- ## Timestamps and the visit ledger (index.ts lines 41, 151-183) -/

/-- Embeds `SEVEN_DAYS_MS = 7 * 24 * 60 * 60 * 1000` (milliseconds). -/
def SEVEN_DAYS_MS : Int := 7 * 24 * 60 * 60 * 1000

/-- Firestore `Timestamp` (seconds since epoch plus nanoseconds). -/
structure Timestamp where
  seconds : Int
  nanoseconds : Int
deriving Repr, DecidableEq

/-- Embeds `Timestamp.prototype.toMillis`. -/
def Timestamp.toMillis (t : Timestamp) : Int :=
  t.seconds * 1000 + t.nanoseconds / 1000000

/-- Embeds `Timestamp.fromMillis` (floor seconds, remainder to nanos). -/
def Timestamp.fromMillis (m : Int) : Timestamp :=
  ⟨Int.fdiv m 1000, Int.fmod m 1000 * 1000000⟩

/-- Raw shape of a stored `recentEntries` element before normalization:
a canonical `Timestamp` instance, an object carrying a numeric `seconds`
field (with optional `nanoseconds`), a plain epoch-milliseconds number,
or anything else (`other`). -/
inductive RawEntry where
  | ts (t : Timestamp)
  | secPair (seconds : Int) (nanoseconds : Option Int)
  | millis (m : Int)
  | other
deriving Repr, DecidableEq

/-- Embeds the inner `normalizeTimestamp` helper of
`notifyUserNearLocation` (index.ts lines 152-172): the three accepted
representations normalize, everything else yields `none`. -/
def normalizeTimestamp : RawEntry → Option Timestamp
  | .ts t => some t
  | .secPair s n => some ⟨s, n.getD 0⟩
  | .millis m => some (Timestamp.fromMillis m)
  | .other => none

/-- Embeds the ledger pruning of `notifyUserNearLocation`
(index.ts lines 174-182): map every raw entry through
`normalizeTimestamp`, then keep the entries that normalized and whose
age relative to `now` is at most seven days. -/
def pruneEntries (now : Timestamp) (raw : List RawEntry) : List Timestamp :=
  ((raw.map normalizeTimestamp).filterMap (fun o => o)).filter
    (fun e => now.toMillis - e.toMillis ≤ SEVEN_DAYS_MS)

/- ## Document-store helpers (association lists keyed by doc id) -/

/-- Firestore `set`/`update` on a collection: replace the document with
the given id, or append it when absent. -/
def dbSet {α : Type} : List (String × α) → String → α → List (String × α)
  | [], k, v => [(k, v)]
  | p :: rest, k, v => if p.1 = k then (k, v) :: rest else p :: dbSet rest k v

/-- Firestore `delete` on a collection: drop the document with the id. -/
def dbDelete {α : Type} (l : List (String × α)) (k : String) : List (String × α) :=
  l.filter (fun p => p.1 ≠ k)

/-- Firestore point read: the document stored under the id, if any. -/
def dbGet {α : Type} (l : List (String × α)) (k : String) : Option α :=
  (l.find? (fun p => p.1 = k)).map (fun p => p.2)

/- ## Visit Tracker ledger step (index.ts lines 151-209) -/

/-- Active-guest document: an opaque bag of guest-identifying fields
plus the raw `recentEntries` visit ledger. -/
structure GuestRecord where
  fields : List (String × String)
  recentEntries : List RawEntry
deriving Repr, DecidableEq

/-- Regular-guest document created at promotion: the guest fields, the
updated (normalized) ledger and the `becameRegularAt` timestamp. -/
structure RegularRecord where
  fields : List (String × String)
  recentEntries : List Timestamp
  becameRegularAt : Timestamp
deriving Repr, DecidableEq

/-- One owner's guest collections (`users` and `regularUsers`). -/
structure OwnerStore where
  users : List (String × GuestRecord)
  regularUsers : List (String × RegularRecord)
deriving Repr, DecidableEq

/-- Embeds the ledger-and-promotion tail of `notifyUserNearLocation`
(index.ts lines 151-209), entered once the notification has been sent:
prune the ledger, append `now`, persist it on the active record, and
when the new ledger length is at least 3 copy the guest (with the
updated ledger and `becameRegularAt := now`) into `regularUsers` under
the same id and delete the active record. -/
def ledgerStep (now : Timestamp) (uid : String) (after : GuestRecord)
    (st : OwnerStore) : OwnerStore :=
  let filteredEntries := pruneEntries now after.recentEntries ++ [now]
  let st1 : OwnerStore :=
    { st with
      users := dbSet st.users uid
        { after with recentEntries := filteredEntries.map RawEntry.ts } }
  if 3 ≤ filteredEntries.length then
    let st2 : OwnerStore :=
      { st1 with
        regularUsers := dbSet st1.regularUsers uid
          ⟨after.fields, filteredEntries, now⟩ }
    { st2 with users := dbDelete st2.users uid }
  else st1

/- ## Basic store lemmas -/

theorem dbGet_dbSet_self {α : Type} (l : List (String × α)) (k : String) (v : α) :
    dbGet (dbSet l k v) k = some v := by
  induction l with
  | nil => simp [dbSet, dbGet, List.find?]
  | cons p rest ih =>
    by_cases h : p.1 = k
    · simp [dbSet, dbGet, h, List.find?]
    · simpa [dbSet, dbGet, h, List.find?] using ih

theorem dbGet_dbDelete_self {α : Type} (l : List (String × α)) (k : String) :
    dbGet (dbDelete l k) k = none := by
  have h : List.find? (fun p => decide (p.1 = k)) (dbDelete l k) = none := by
    rw [List.find?_eq_none]
    intro x hx
    simp only [dbDelete, List.mem_filter, decide_not, Bool.not_eq_eq_eq_not,
      Bool.not_true, decide_eq_false_iff_not] at hx
    simp [hx.2]
  simp [dbGet, h]

/- ## Token resolver (index.ts lines 74-86) -/

/-- JavaScript `String.prototype.trim`: strip whitespace from both ends
(computable model over the character list). -/
def jsTrim (s : String) : String :=
  ⟨(((s.data.dropWhile Char.isWhitespace).reverse).dropWhile
      Char.isWhitespace).reverse⟩

/-- Guest document as seen by the token resolver: an optional
`fcmToken` string field and an optional `fcmTokens` array whose
elements may be strings (`some`) or non-strings (`none`). -/
structure GuestDoc where
  fcmToken : Option String
  fcmTokens : Option (List (Option String))
deriving Repr, DecidableEq

/-- Embeds the `fcmTokens`-array scan of `resolveFcmToken`: the first
string element with non-empty trim, trimmed. -/
def resolveFromTokenList (d : GuestDoc) : Option String :=
  match d.fcmTokens with
  | some entries =>
    ((entries.filterMap (fun e => e)).find? (fun s => 0 < (jsTrim s).length)).map
      (fun s => jsTrim s)
  | none => none

/-- Embeds `resolveFcmToken` (index.ts lines 74-86): prefer a non-empty
trimmed `fcmToken` field, else fall back to the `fcmTokens` array. -/
def resolveFcmToken (d : GuestDoc) : Option String :=
  match d.fcmToken with
  | some s => if 0 < (jsTrim s).length then some (jsTrim s) else resolveFromTokenList d
  | none => resolveFromTokenList d

/-- Insertion into the JavaScript `Set<string>` of tokens: appends the
resolved token unless it is already present (insertion order kept). -/
def addToken (tokens : List String) (d : GuestDoc) : List String :=
  match resolveFcmToken d with
  | some t => if t ∈ tokens then tokens else tokens ++ [t]
  | none => tokens

/-- Embeds the `collectTokens` loops: fold the documents of a snapshot
into the token set. -/
def collectTokensFrom (tokens : List String) (docs : List GuestDoc) : List String :=
  docs.foldl addToken tokens

/- ## Notification dispatch loop (index.ts lines 292-307, 620-636) -/

/-- Result of one `sendEachForMulticast` call. -/
structure SendResponse where
  successCount : Nat
  failureCount : Nat
deriving Repr, DecidableEq

/-- Loop encoding for the batch slicing: `fuel` bounds the number of
remaining iterations (the loop index advances by 500 per step, so the
list length is always enough fuel). -/
def chunkedFuel : Nat → List String → List (List String)
  | _, [] => []
  | 0, _ :: _ => []
  | fuel + 1, x :: xs => ((x :: xs).take 500) :: chunkedFuel fuel (xs.drop 499)

/-- Batches produced by the `for (let i = 0; i < tokenList.length;
i += 500)` loop: consecutive slices of at most 500 tokens. -/
def chunked (l : List String) : List (List String) :=
  chunkedFuel l.length l

/-- Embeds the sequential batch loop: each batch is handed to the
`send` oracle (a `sendEachForMulticast` call); a returned response has
its counts added to the accumulators, a thrown exception (`Except.error`)
propagates immediately.  The second component counts the batches whose
send was actually invoked. -/
def sendLoop (send : List String → Except String SendResponse) :
    List (List String) → Nat → Nat → Except String (Nat × Nat) × Nat
  | [], s, f => (.ok (s, f), 0)
  | b :: bs, s, f =>
    match send b with
    | .error e => (.error e, 1)
    | .ok r =>
      let rest := sendLoop send bs (s + r.successCount) (f + r.failureCount)
      (rest.1, rest.2 + 1)

/- ## Callable-handler plumbing -/

/-- Structured `HttpsError` kinds raised by the callable handlers, plus
`dispatchFailure` for an exception propagating out of the send loop. -/
inductive CallError where
  | unauthenticated (msg : String)
  | invalidArgument (msg : String)
  | notFound (msg : String)
  | permissionDenied (msg : String)
  | dispatchFailure (msg : String)
deriving Repr, DecidableEq

/-- Owner (tenant) document fields used by the handlers. -/
structure OwnerDoc where
  subscriptionPlan : Option String
  active : Option Bool
deriving Repr, DecidableEq

/-- Embeds `ownerData?.subscriptionPlan || "free"`: a missing or empty
plan string falls back to `"free"`. -/
def planOf (od : OwnerDoc) : String :=
  match od.subscriptionPlan with
  | some s => if s = "" then "free" else s
  | none => "free"

/-- Embeds `FREE_PLAN_USER_LIMIT = 100`. -/
def FREE_PLAN_USER_LIMIT : Nat := 100

/- ## sendManualMessage (index.ts lines 224-320) -/

/-- Result object of `sendManualMessage`. -/
structure ManualResult where
  successCount : Nat
  failureCount : Nat
  totalTokens : Nat
deriving Repr, DecidableEq

/-- Embeds `sendManualMessage`.  `owner` is the Firestore lookup of the
owner document together with the `users` and `regularUsers` snapshots;
`send` is the multicast oracle.  The second component of the result
counts the multicast invocations actually performed. -/
def sendManualMessage (send : List String → Except String SendResponse)
    (authed : Bool) (ownerIdRaw messageRaw : String)
    (includeRegularUsers : Option Bool)
    (owner : Option (OwnerDoc × List GuestDoc × List GuestDoc)) :
    Except CallError ManualResult × Nat :=
  if !authed then (.error (.unauthenticated "Owner must be signed in."), 0)
  else
    let ownerId := jsTrim ownerIdRaw
    let message := jsTrim messageRaw
    let includeRegular := includeRegularUsers ≠ some false
    if ownerId = "" then (.error (.invalidArgument "ownerId is required."), 0)
    else if message = "" then
      (.error (.invalidArgument "Message body is required."), 0)
    else
      match owner with
      | none => (.error (.notFound "Owner not found."), 0)
      | some (ownerData, users, regularUsers) =>
        let subscriptionPlan := planOf ownerData
        let isActive := ownerData.active ≠ some false
        if ¬ isActive then
          (.error (.permissionDenied "Owner account is deactivated."), 0)
        else if subscriptionPlan = "free" then
          (.error (.permissionDenied "Manual messaging is not available on the free plan. Upgrade to premium to send messages."), 0)
        else
          let tokens :=
            let t1 := collectTokensFrom [] users
            if includeRegular then collectTokensFrom t1 regularUsers else t1
          if tokens.isEmpty then
            (.ok ⟨0, 0, 0⟩, 0)
          else
            match sendLoop send (chunked tokens) 0 0 with
            | (.ok (s, f), n) => (.ok ⟨s, f, tokens.length⟩, n)
            | (.error e, n) => (.error (.dispatchFailure e), n)

/- ## checkUserLimit (index.ts lines 322-363) -/

/-- Reported guest limit: the free-plan cap or JavaScript `Infinity`. -/
inductive Limit where
  | finite (n : Nat)
  | infinite
deriving Repr, DecidableEq

/-- Result object of `checkUserLimit`. -/
structure LimitResult where
  allowed : Bool
  current : Nat
  limit : Limit
deriving Repr, DecidableEq

/-- Embeds `checkUserLimit`.  `usersCount` is the size the `users`
snapshot would have; the `Bool` in the result records whether that
snapshot was actually fetched. -/
def checkUserLimit (authed : Bool) (ownerIdRaw : String)
    (owner : Option OwnerDoc) (usersCount : Nat) :
    Except CallError (LimitResult × Bool) :=
  if !authed then .error (.unauthenticated "Must be signed in.")
  else
    let ownerId := jsTrim ownerIdRaw
    if ownerId = "" then .error (.invalidArgument "ownerId is required.")
    else
      match owner with
      | none => .error (.notFound "Owner not found.")
      | some ownerData =>
        if planOf ownerData = "premium" then
          .ok (⟨true, 0, .infinite⟩, false)
        else
          if FREE_PLAN_USER_LIMIT ≤ usersCount then
            .ok (⟨false, usersCount, .finite FREE_PLAN_USER_LIMIT⟩, true)
          else
            .ok (⟨true, usersCount, .finite FREE_PLAN_USER_LIMIT⟩, true)

/- ## scheduleMessage (index.ts lines 479-570) -/

/-- Scheduled-message status: `pending`, `sent` (optionally carrying
the accumulated success/failure counts), or `failed` with error text. -/
inductive MsgStatus where
  | pending
  | sent (counts : Option (Nat × Nat))
  | failed (error : String)
deriving Repr, DecidableEq

/-- Scheduled-message document (times in epoch milliseconds). -/
structure SchedMsg where
  id : String
  message : String
  target : String
  scheduledAt : Int
  status : MsgStatus
deriving Repr, DecidableEq

/-- Raw `scheduledAt` request value: a `Timestamp` instance, an object
with a numeric `seconds` field, a falsy value (`missing`), or any other
truthy value (`other`). -/
inductive SchedAtInput where
  | ts (t : Timestamp)
  | secPair (seconds : Int) (nanoseconds : Option Int)
  | missing
  | other
deriving Repr, DecidableEq

/-- Embeds the `scheduledAt` shape dispatch of `scheduleMessage`
(index.ts lines 517-531). -/
def parseScheduledAt : SchedAtInput → Option Timestamp
  | .ts t => some t
  | .secPair s n => some ⟨s, n.getD 0⟩
  | .missing => none
  | .other => none

/-- Embeds `validTargets = ["normal", "regular", "premium", "all"]`. -/
def validTargets : List String := ["normal", "regular", "premium", "all"]

/-- Result object of `scheduleMessage`. -/
structure ScheduleResult where
  success : Bool
  messageId : String
  scheduledAt : Int
deriving Repr, DecidableEq

/-- Embeds `scheduleMessage`: validation in source order (auth, ownerId,
message, `scheduledAt` present, owner lookup, free-plan gate, format,
future check, target check) and finally persistence of a `pending`
message under the fresh id `newId`. -/
def scheduleMessage (now : Timestamp) (authed : Bool)
    (ownerIdRaw messageRaw : String) (targetRaw : Option String)
    (scheduledAt : SchedAtInput) (owner : Option OwnerDoc)
    (newId : String) (msgs : List SchedMsg) :
    Except CallError (ScheduleResult × List SchedMsg) :=
  if !authed then .error (.unauthenticated "Owner must be signed in.")
  else
    let ownerId := jsTrim ownerIdRaw
    let message := jsTrim messageRaw
    let target := jsTrim (targetRaw.getD "all")
    if ownerId = "" then .error (.invalidArgument "ownerId is required.")
    else if message = "" then
      .error (.invalidArgument "Message body is required.")
    else
      match scheduledAt with
      | .missing => .error (.invalidArgument "scheduledAt is required.")
      | sa =>
        match owner with
        | none => .error (.notFound "Owner not found.")
        | some ownerData =>
          if planOf ownerData = "free" then
            .error (.permissionDenied "Scheduling messages is not available on the free plan. Upgrade to premium.")
          else
            match parseScheduledAt sa with
            | none => .error (.invalidArgument "Invalid scheduledAt format.")
            | some scheduledTimestamp =>
              if scheduledTimestamp.toMillis ≤ now.toMillis then
                .error (.invalidArgument "Scheduled time must be in the future.")
              else if target ∈ validTargets then
                .ok (⟨true, newId, scheduledTimestamp.toMillis⟩,
                  msgs ++ [⟨newId, message, target, scheduledTimestamp.toMillis, .pending⟩])
              else
                .error (.invalidArgument "Target must be one of: normal, regular, premium, all")

/- ## sendScheduledMessage and the pending-message sweep
     (index.ts lines 572-654, 656-706) -/

/-- One owner's state for the scheduler: the guest snapshots and the
`scheduledMessages` collection. -/
structure OwnerMsgStore where
  users : List GuestDoc
  regularUsers : List GuestDoc
  scheduledMessages : List SchedMsg
deriving Repr, DecidableEq

/-- Embeds the target-audience resolution of `sendScheduledMessage`
(index.ts lines 583-605): `all`/`normal` add active guests,
`all`/`regular` add regular guests, `premium` adds regular guests. -/
def tokensForTarget (users regularUsers : List GuestDoc) (target : String) :
    List String :=
  let tokens : List String := []
  let tokens :=
    if target = "all" ∨ target = "normal" then collectTokensFrom tokens users
    else tokens
  let tokens :=
    if target = "all" ∨ target = "regular" then
      collectTokensFrom tokens regularUsers
    else tokens
  if target = "premium" then collectTokensFrom tokens regularUsers else tokens

/-- Firestore status update on the `scheduledMessages` collection. -/
def setStatusIn (msgs : List SchedMsg) (id : String) (s : MsgStatus) :
    List SchedMsg :=
  msgs.map (fun m => if m.id = id then { m with status := s } else m)

/-- Status of the message stored under the given id, if any. -/
def statusIn (msgs : List SchedMsg) (id : String) : Option MsgStatus :=
  (msgs.find? (fun m => m.id = id)).map (fun m => m.status)

/-- Embeds `sendScheduledMessage` (index.ts lines 572-654): resolve the
target token set; with no tokens mark the message `sent` (no counts);
otherwise run the batch loop — a thrown batch send propagates as
`Except.error` (the status write is not reached), a completed loop
writes `sent` with the accumulated counts.  `send` receives the message
body and the token batch. -/
def sendScheduledMessage (send : String → List String → Except String SendResponse)
    (st : OwnerMsgStore) (message target messageId : String) :
    Except String OwnerMsgStore :=
  let tokens := tokensForTarget st.users st.regularUsers target
  if tokens.isEmpty then
    .ok { st with scheduledMessages := setStatusIn st.scheduledMessages messageId (.sent none) }
  else
    match sendLoop (send message) (chunked tokens) 0 0 with
    | (.ok (s, f), _) =>
      .ok { st with scheduledMessages := setStatusIn st.scheduledMessages messageId (.sent (some (s, f))) }
    | (.error e, _) => .error e

/-- Embeds the pending query of `checkScheduledMessages` for one owner
(index.ts lines 670-677): messages with status `pending` and
`scheduledAt ≤ now`, limited to 10. -/
def pendingSelection (now : Int) (st : OwnerMsgStore) : List SchedMsg :=
  (st.scheduledMessages.filter
    (fun m => decide (m.status = .pending ∧ m.scheduledAt ≤ now))).take 10

/-- Embeds the per-message try/catch body of `checkScheduledMessages`
(index.ts lines 679-704): dispatch the message; on a thrown error set
its status to `failed` with the caught error text. -/
def sweepStep (send : String → List String → Except String SendResponse)
    (st : OwnerMsgStore) (m : SchedMsg) : OwnerMsgStore :=
  match sendScheduledMessage send st m.message m.target m.id with
  | .ok st1 => st1
  | .error e =>
    { st with scheduledMessages := setStatusIn st.scheduledMessages m.id (.failed e) }

/-- Embeds the inner sweep loop of `checkScheduledMessages` for one
active owner: process every selected pending message in order. -/
def sweepOwner (send : String → List String → Except String SendResponse)
    (now : Int) (st : OwnerMsgStore) : OwnerMsgStore :=
  (pendingSelection now st).foldl (sweepStep send) st

/-- Terminal status a single dispatch produces for a message, as a
function of the guest snapshots and the message body/target: `sent`
without counts when the token set is empty, `sent` with counts when the
batch loop completes, `failed` with the thrown error text otherwise. -/
def scheduledOutcome (send : String → List String → Except String SendResponse)
    (users regularUsers : List GuestDoc) (message target : String) : MsgStatus :=
  let tokens := tokensForTarget users regularUsers target
  if tokens.isEmpty then .sent none
  else
    match sendLoop (send message) (chunked tokens) 0 0 with
    | (.ok (s, f), _) => .sent (some (s, f))
    | (.error e, _) => .failed e

/- ## Claim theorems -/

/-- C9: for all coordinate pairs the haversine distance is symmetric,
and the distance from any coordinate to itself is zero. -/
theorem distanceBetweenMeters_symm_self (a b : GeoPoint) :
    distanceBetweenMeters a b = distanceBetweenMeters b a ∧
    distanceBetweenMeters a a = 0 := by
  constructor
  · simp only [distanceBetweenMeters]
    have e1 : toRadians (a.lat - b.lat) = -toRadians (b.lat - a.lat) := by
      unfold toRadians; ring
    have e2 : toRadians (a.lng - b.lng) = -toRadians (b.lng - a.lng) := by
      unfold toRadians; ring
    rw [e1, e2, neg_div, neg_div, Real.sin_neg, Real.sin_neg, neg_sq, neg_sq,
      mul_comm (Real.cos (toRadians b.lat)) (Real.cos (toRadians a.lat))]
  · simp [distanceBetweenMeters, toRadians, sub_self]

/-- C1: once a location-update event reaches the ledger step, with the
new ledger being the pruned entries plus the appended visit, promotion
happens exactly when that ledger reaches length 3 (and never below):
on promotion the regular record is created under the same id with the
guest fields, the updated ledger and the promotion timestamp, and the
active record is deleted; below the threshold the active record keeps
the updated ledger and the regular store is untouched. -/
theorem ledgerStep_promotion (now : Timestamp) (uid : String)
    (after g0 : GuestRecord) (st : OwnerStore) (L : List Timestamp)
    (_hmem : dbGet st.users uid = some g0)
    (hL : L = pruneEntries now after.recentEntries ++ [now]) :
    (3 ≤ L.length →
      dbGet (ledgerStep now uid after st).users uid = none ∧
      dbGet (ledgerStep now uid after st).regularUsers uid =
        some ⟨after.fields, L, now⟩) ∧
    (L.length < 3 →
      dbGet (ledgerStep now uid after st).users uid =
        some { after with recentEntries := L.map RawEntry.ts } ∧
      (ledgerStep now uid after st).regularUsers = st.regularUsers) := by
  subst hL
  constructor
  · intro h3
    unfold ledgerStep
    simp only []
    rw [if_pos h3]
    exact ⟨dbGet_dbDelete_self _ _, dbGet_dbSet_self _ _ _⟩
  · intro hlt
    unfold ledgerStep
    simp only []
    rw [if_neg (by omega)]
    exact ⟨dbGet_dbSet_self _ _ _, rfl⟩

/-- Witness for C1: a guest with two recent visits (in the seconds-pair
and epoch-milliseconds representations) is promoted by the third visit;
afterwards the active record is gone and the regular record carries the
guest fields, the three-entry ledger and the promotion timestamp. -/
theorem ledgerStep_promotion_witness :
    dbGet (ledgerStep ⟨1000, 0⟩ "u1"
        ⟨[("displayName", "Asha")], [.millis 999000, .secPair 999 none]⟩
        ⟨[("u1", ⟨[("displayName", "Asha")], [.millis 999000, .secPair 999 none]⟩)], []⟩).users "u1" = none ∧
    dbGet (ledgerStep ⟨1000, 0⟩ "u1"
        ⟨[("displayName", "Asha")], [.millis 999000, .secPair 999 none]⟩
        ⟨[("u1", ⟨[("displayName", "Asha")], [.millis 999000, .secPair 999 none]⟩)], []⟩).regularUsers "u1" =
      some ⟨[("displayName", "Asha")], [⟨999, 0⟩, ⟨999, 0⟩, ⟨1000, 0⟩], ⟨1000, 0⟩⟩ :=
  (ledgerStep_promotion ⟨1000, 0⟩ "u1"
    ⟨[("displayName", "Asha")], [.millis 999000, .secPair 999 none]⟩
    ⟨[("displayName", "Asha")], [.millis 999000, .secPair 999 none]⟩
    ⟨[("u1", ⟨[("displayName", "Asha")], [.millis 999000, .secPair 999 none]⟩)], []⟩
    [⟨999, 0⟩, ⟨999, 0⟩, ⟨1000, 0⟩] (by decide) (by decide)).1 (by decide)

/-- C6: after pruning at time `now`, every retained ledger entry has
age at most seven days, the retained entries keep the relative order of
the normalized original sequence, and an entry of unrecognized shape is
discarded without affecting the rest. -/
theorem pruneEntries_window_order_failclosed (now : Timestamp)
    (raw xs ys : List RawEntry) :
    (∀ e ∈ pruneEntries now raw,
      now.toMillis - e.toMillis ≤ SEVEN_DAYS_MS) ∧
    (pruneEntries now raw).Sublist (raw.filterMap normalizeTimestamp) ∧
    pruneEntries now (xs ++ RawEntry.other :: ys) = pruneEntries now (xs ++ ys) := by
  refine ⟨?_, ?_, ?_⟩
  · intro e he
    unfold pruneEntries at he
    rw [List.mem_filter] at he
    exact of_decide_eq_true he.2
  · unfold pruneEntries
    rw [List.filterMap_map]
    exact (List.filter_sublist _).trans (by rw [show ((fun o => o) ∘ normalizeTimestamp) = normalizeTimestamp from rfl])
  · simp [pruneEntries, List.filterMap_append, normalizeTimestamp]

/-- Witness for C6: a recognized entry one second in the past survives
pruning next to an unrecognized entry, and its age is within the
seven-day window. -/
theorem pruneEntries_witness :
    (⟨999, 0⟩ : Timestamp) ∈ pruneEntries ⟨1000, 0⟩ [RawEntry.other, .millis 999000] ∧
    (⟨1000, 0⟩ : Timestamp).toMillis - (⟨999, 0⟩ : Timestamp).toMillis ≤ SEVEN_DAYS_MS :=
  ⟨by decide,
    (pruneEntries_window_order_failclosed ⟨1000, 0⟩
      [RawEntry.other, .millis 999000] [] []).1 ⟨999, 0⟩ (by decide)⟩

/-- C8: for an existing tenant whose tier is `free` or `premium`,
`checkUserLimit` answers `allowed = false` exactly when the tier is
`free` and the active-guest count is at least 100, and always answers
`allowed = true` for `premium`. -/
theorem checkUserLimit_cap (ownerIdRaw : String) (od : OwnerDoc) (c : Nat)
    (hid : jsTrim ownerIdRaw ≠ "")
    (hplan : planOf od = "free" ∨ planOf od = "premium") :
    ∃ r flag, checkUserLimit true ownerIdRaw (some od) c = .ok (r, flag) ∧
      (r.allowed = false ↔ planOf od = "free" ∧ FREE_PLAN_USER_LIMIT ≤ c) ∧
      (planOf od = "premium" → r.allowed = true) := by
  rcases hplan with h | h
  · by_cases hc : FREE_PLAN_USER_LIMIT ≤ c
    · exact ⟨⟨false, c, .finite FREE_PLAN_USER_LIMIT⟩, true,
        by simp [checkUserLimit, hid, h, hc], by simp [h, hc], by simp [h]⟩
    · exact ⟨⟨true, c, .finite FREE_PLAN_USER_LIMIT⟩, true,
        by simp [checkUserLimit, hid, h, hc], by simp [h, hc], by simp⟩
  · exact ⟨⟨true, 0, .infinite⟩, false,
      by simp [checkUserLimit, hid, h], by simp [h], by simp⟩

/-- Witness for C8: a free tenant with 150 active guests is denied. -/
theorem checkUserLimit_cap_witness :
    ∃ r flag, checkUserLimit true "o1" (some ⟨some "free", none⟩) 150 = .ok (r, flag) ∧
      (r.allowed = false ↔ planOf ⟨some "free", none⟩ = "free" ∧ FREE_PLAN_USER_LIMIT ≤ 150) ∧
      (planOf ⟨some "free", none⟩ = "premium" → r.allowed = true) :=
  checkUserLimit_cap "o1" ⟨some "free", none⟩ 150 (by decide) (Or.inl (by decide))

/-- C10: for a premium tenant `checkUserLimit` reports `current = 0`
and an infinite limit without fetching the active-guest snapshot
(read flag `false`), whatever the actual guest count is — so the
reported `current` differs from any non-zero actual count. -/
theorem checkUserLimit_premium_shortcircuit (ownerIdRaw : String)
    (od : OwnerDoc) (c : Nat)
    (hid : jsTrim ownerIdRaw ≠ "") (hprem : planOf od = "premium") :
    checkUserLimit true ownerIdRaw (some od) c = .ok (⟨true, 0, .infinite⟩, false) ∧
    (c ≠ 0 → ∀ r flag, checkUserLimit true ownerIdRaw (some od) c = .ok (r, flag) →
      r.current ≠ c) := by
  have h : checkUserLimit true ownerIdRaw (some od) c = .ok (⟨true, 0, .infinite⟩, false) := by
    simp [checkUserLimit, hid, hprem]
  refine ⟨h, ?_⟩
  intro hc r flag heq
  rw [h] at heq
  have : r = ⟨true, 0, .infinite⟩ := by
    cases heq
    rfl
  rw [this]
  simpa using fun habs => hc habs.symm

/-- Witness for C10: a premium tenant with 42 actual guests is reported
as `current = 0`, limit infinite, with no guest read. -/
theorem checkUserLimit_premium_witness :
    checkUserLimit true "o1" (some ⟨some "premium", some true⟩) 42 =
      .ok (⟨true, 0, .infinite⟩, false) :=
  (checkUserLimit_premium_shortcircuit "o1" ⟨some "premium", some true⟩ 42
    (by decide) (by decide)).1

/-- C7: a manual send by an authenticated, active, premium tenant whose
resolved deduplicated token set is empty returns zero counts as a
success, with zero multicast invocations. -/
theorem sendManualMessage_empty_tokens
    (send : List String → Except String SendResponse)
    (ownerIdRaw messageRaw : String) (includeRegularUsers : Option Bool)
    (od : OwnerDoc) (users regularUsers : List GuestDoc)
    (hid : jsTrim ownerIdRaw ≠ "") (hmsg : jsTrim messageRaw ≠ "")
    (hactive : od.active ≠ some false) (hplan : planOf od = "premium")
    (hempty : (if includeRegularUsers ≠ some false then
        collectTokensFrom (collectTokensFrom [] users) regularUsers
      else collectTokensFrom [] users) = []) :
    sendManualMessage send true ownerIdRaw messageRaw includeRegularUsers
      (some (od, users, regularUsers)) = (.ok ⟨0, 0, 0⟩, 0) := by
  simp [sendManualMessage, hid, hmsg, hactive, hplan, hempty]

/-- Witness for C7: an owner with no guests at all gets the zero
result. -/
theorem sendManualMessage_empty_tokens_witness :
    sendManualMessage (fun _ => .error "unreachable") true "o1" "hello" none
      (some (⟨some "premium", some true⟩, [], [])) = (.ok ⟨0, 0, 0⟩, 0) :=
  sendManualMessage_empty_tokens (fun _ => .error "unreachable") "o1" "hello"
    none ⟨some "premium", some true⟩ [] [] (by decide) (by decide)
    (by decide) (by decide) (by decide)

/-- Helper: with an authenticated caller, non-empty trimmed inputs, an
existing non-free owner and a parseable `scheduledAt`, `scheduleMessage`
reduces to the future check followed by the target check. -/
theorem scheduleMessage_reduce (now : Timestamp) (ownerIdRaw messageRaw : String)
    (targetRaw : Option String) (sa : SchedAtInput) (od : OwnerDoc)
    (newId : String) (msgs : List SchedMsg) (ts : Timestamp)
    (hid : jsTrim ownerIdRaw ≠ "") (hmsg : jsTrim messageRaw ≠ "")
    (hplan : planOf od ≠ "free") (hparse : parseScheduledAt sa = some ts) :
    scheduleMessage now true ownerIdRaw messageRaw targetRaw sa (some od) newId msgs =
      (if ts.toMillis ≤ now.toMillis then
        .error (.invalidArgument "Scheduled time must be in the future.")
      else if jsTrim (targetRaw.getD "all") ∈ validTargets then
        .ok (⟨true, newId, ts.toMillis⟩,
          msgs ++ [⟨newId, jsTrim messageRaw, jsTrim (targetRaw.getD "all"),
            ts.toMillis, .pending⟩])
      else
        .error (.invalidArgument "Target must be one of: normal, regular, premium, all")) := by
  cases sa with
  | missing => simp [parseScheduledAt] at hparse
  | ts t =>
    simp only [parseScheduledAt, Option.some.injEq] at hparse
    subst hparse
    simp [scheduleMessage, hid, hmsg, hplan, parseScheduledAt]
  | secPair s n =>
    simp only [parseScheduledAt, Option.some.injEq] at hparse
    subst hparse
    simp [scheduleMessage, hid, hmsg, hplan, parseScheduledAt]
  | other => simp [parseScheduledAt] at hparse

/-- C5: for a well-formed request (authenticated, non-empty ids, an
existing non-free tenant, a parseable `scheduledAt`), the call fails
with `invalid-argument` exactly when the fire-at time is not strictly
in the future or the target is not one of the four valid values; in
the remaining cases it persists a `pending` message and returns its id
and scheduled time in milliseconds. -/
theorem scheduleMessage_validation (now : Timestamp) (ownerIdRaw messageRaw : String)
    (targetRaw : Option String) (sa : SchedAtInput) (od : OwnerDoc)
    (newId : String) (msgs : List SchedMsg) (ts : Timestamp)
    (hid : jsTrim ownerIdRaw ≠ "") (hmsg : jsTrim messageRaw ≠ "")
    (hplan : planOf od ≠ "free") (hparse : parseScheduledAt sa = some ts) :
    ((∃ em, scheduleMessage now true ownerIdRaw messageRaw targetRaw sa
        (some od) newId msgs = .error (.invalidArgument em)) ↔
      (ts.toMillis ≤ now.toMillis ∨ jsTrim (targetRaw.getD "all") ∉ validTargets)) ∧
    (now.toMillis < ts.toMillis → jsTrim (targetRaw.getD "all") ∈ validTargets →
      scheduleMessage now true ownerIdRaw messageRaw targetRaw sa (some od) newId msgs =
        .ok (⟨true, newId, ts.toMillis⟩,
          msgs ++ [⟨newId, jsTrim messageRaw, jsTrim (targetRaw.getD "all"),
            ts.toMillis, .pending⟩])) := by
  have hred := scheduleMessage_reduce now ownerIdRaw messageRaw targetRaw sa od
    newId msgs ts hid hmsg hplan hparse
  constructor
  · rw [hred]
    by_cases hfut : ts.toMillis ≤ now.toMillis
    · rw [if_pos hfut]
      exact iff_of_true ⟨"Scheduled time must be in the future.", rfl⟩ (Or.inl hfut)
    · by_cases htg : jsTrim (targetRaw.getD "all") ∈ validTargets
      · rw [if_neg hfut, if_pos htg]
        refine iff_of_false ?_ ?_
        · rintro ⟨em, hem⟩
          exact Except.noConfusion hem
        · rintro (h | h)
          · exact hfut h
          · exact h htg
      · rw [if_neg hfut, if_neg htg]
        exact iff_of_true
          ⟨"Target must be one of: normal, regular, premium, all", rfl⟩ (Or.inr htg)
  · intro hfut htg
    rw [hred, if_neg (by omega), if_pos htg]

/-- Witness for C5: a premium tenant scheduling one minute ahead with
target `regular` gets a persisted pending message and the scheduled
milliseconds back. -/
theorem scheduleMessage_validation_witness :
    scheduleMessage ⟨0, 0⟩ true "o1" "hello" (some "regular") (.ts ⟨60, 0⟩)
        (some ⟨some "premium", some true⟩) "m1" [] =
      .ok (⟨true, "m1", 60000⟩, [⟨"m1", "hello", "regular", 60000, .pending⟩]) := by
  have h := (scheduleMessage_validation ⟨0, 0⟩ "o1" "hello" (some "regular")
    (.ts ⟨60, 0⟩) ⟨some "premium", some true⟩ "m1" [] ⟨60, 0⟩
    (by decide) (by decide) (by decide) rfl).2 (by decide) (by decide)
  exact h

/-- Counterexample for C4: a deactivated premium tenant calling
`scheduleMessage` with valid inputs gets no permission error — the
call succeeds and persists the pending message, because the handler
never consults the active flag. -/
theorem scheduleMessage_inactive_no_permission_error :
    (⟨some "premium", some false⟩ : OwnerDoc).active = some false ∧
    planOf ⟨some "premium", some false⟩ = "premium" ∧
    scheduleMessage ⟨0, 0⟩ true "o1" "hello" (some "all") (.ts ⟨60, 0⟩)
        (some ⟨some "premium", some false⟩) "m1" [] =
      .ok (⟨true, "m1", 60000⟩, [⟨"m1", "hello", "all", 60000, .pending⟩]) :=
  ⟨rfl, rfl, rfl⟩

/-- C4 (amended): manual sends raise a permission error (before any
dispatch) when the tenant is deactivated or on the free tier; schedule
requests raise a permission error (before persistence) when the tenant
is on the free tier, but do not check the active flag — a deactivated
premium tenant's schedule request succeeds and persists the message. -/
theorem entitlement_gate_amended :
    (∀ (send : List String → Except String SendResponse) (oid msg : String)
        (inc : Option Bool) (od : OwnerDoc) (us rs : List GuestDoc),
      jsTrim oid ≠ "" → jsTrim msg ≠ "" → od.active = some false →
      sendManualMessage send true oid msg inc (some (od, us, rs)) =
        (.error (.permissionDenied "Owner account is deactivated."), 0)) ∧
    (∀ (send : List String → Except String SendResponse) (oid msg : String)
        (inc : Option Bool) (od : OwnerDoc) (us rs : List GuestDoc),
      jsTrim oid ≠ "" → jsTrim msg ≠ "" → od.active ≠ some false →
      planOf od = "free" →
      sendManualMessage send true oid msg inc (some (od, us, rs)) =
        (.error (.permissionDenied "Manual messaging is not available on the free plan. Upgrade to premium to send messages."), 0)) ∧
    (∀ (now : Timestamp) (oid msg : String) (tRaw : Option String)
        (sa : SchedAtInput) (od : OwnerDoc) (newId : String) (msgs : List SchedMsg),
      jsTrim oid ≠ "" → jsTrim msg ≠ "" → sa ≠ .missing → planOf od = "free" →
      scheduleMessage now true oid msg tRaw sa (some od) newId msgs =
        .error (.permissionDenied "Scheduling messages is not available on the free plan. Upgrade to premium.")) ∧
    (∀ (now : Timestamp) (oid msg : String) (od : OwnerDoc) (newId : String)
        (msgs : List SchedMsg) (t : Timestamp),
      jsTrim oid ≠ "" → jsTrim msg ≠ "" → od.active = some false →
      planOf od = "premium" → now.toMillis < t.toMillis →
      scheduleMessage now true oid msg (some "all") (.ts t) (some od) newId msgs =
        .ok (⟨true, newId, t.toMillis⟩,
          msgs ++ [⟨newId, jsTrim msg, "all", t.toMillis, .pending⟩])) := by
  refine ⟨?_, ?_, ?_, ?_⟩
  · intro send oid msg inc od us rs h1 h2 h3
    simp [sendManualMessage, h1, h2, h3]
  · intro send oid msg inc od us rs h1 h2 h3 h4
    simp [sendManualMessage, h1, h2, h3, h4]
  · intro now oid msg tRaw sa od newId msgs h1 h2 h3 h4
    cases sa with
    | missing => exact absurd rfl h3
    | ts t => simp [scheduleMessage, h1, h2, h4]
    | secPair s n => simp [scheduleMessage, h1, h2, h4]
    | other => simp [scheduleMessage, h1, h2, h4]
  · intro now oid msg od newId msgs t h1 h2 h3 h4 h5
    have hfut : ¬ (t.toMillis ≤ now.toMillis) := by omega
    have hall : jsTrim "all" = "all" := by decide
    simp [scheduleMessage, h1, h2, h4, parseScheduledAt, hfut, hall, validTargets]

/-- Witness for the amended C4: a deactivated premium tenant is blocked
on manual send but sails through scheduling. -/
theorem entitlement_gate_amended_witness :
    sendManualMessage (fun _ => .error "unreachable") true "o1" "hi" none
      (some (⟨some "premium", some false⟩, [], [])) =
      (.error (.permissionDenied "Owner account is deactivated."), 0) ∧
    scheduleMessage ⟨0, 0⟩ true "o1" "hi" (some "all") (.ts ⟨60, 0⟩)
      (some ⟨some "premium", some false⟩) "m1" [] =
      .ok (⟨true, "m1", 60000⟩, [⟨"m1", "hi", "all", 60000, .pending⟩]) :=
  ⟨entitlement_gate_amended.1 (fun _ => .error "unreachable") "o1" "hi" none
      ⟨some "premium", some false⟩ [] [] (by decide) (by decide) rfl,
    by
      have h := entitlement_gate_amended.2.2.2 ⟨0, 0⟩ "o1" "hi"
        ⟨some "premium", some false⟩ "m1" [] ⟨60, 0⟩
        (by decide) (by decide) rfl rfl (by decide)
      exact h⟩

/- ## Batch-loop lemmas for the dispatcher -/

set_option maxRecDepth 40000

theorem chunkedFuel_flatten :
    ∀ (fuel : Nat) (l : List String), l.length ≤ fuel →
      (chunkedFuel fuel l).flatten = l
  | _, [], _ => by simp [chunkedFuel]
  | 0, x :: xs, h => by simp at h
  | fuel + 1, x :: xs, h => by
    have hlen : (xs.drop 499).length ≤ fuel := by
      simp only [List.length_drop]
      simp only [List.length_cons] at h
      omega
    rw [chunkedFuel, List.flatten_cons, chunkedFuel_flatten fuel (xs.drop 499) hlen]
    rw [show (500 : Nat) = 499 + 1 from rfl, List.take_succ_cons, List.cons_append,
      List.take_append_drop]

theorem chunkedFuel_length_le :
    ∀ (fuel : Nat) (l : List String), ∀ b ∈ chunkedFuel fuel l, b.length ≤ 500
  | _, [], _ => by simp [chunkedFuel]
  | 0, x :: xs, _ => by simp [chunkedFuel]
  | fuel + 1, x :: xs, b => by
    intro hb
    rw [chunkedFuel] at hb
    rcases List.mem_cons.mp hb with h | h
    · subst h
      simp [List.length_take]
    · exact chunkedFuel_length_le fuel (xs.drop 499) b h

/-- Lengths of the batches, as a function of the token count alone
(first argument is loop fuel). -/
def chunkLens : Nat → Nat → List Nat
  | _, 0 => []
  | 0, _ + 1 => []
  | fuel + 1, n + 1 => min 500 (n + 1) :: chunkLens fuel (n + 1 - 500)

theorem chunkedFuel_lengths :
    ∀ (fuel : Nat) (l : List String),
      (chunkedFuel fuel l).map List.length = chunkLens fuel l.length
  | _, [] => by simp [chunkedFuel, chunkLens]
  | 0, x :: xs => by simp [chunkedFuel, chunkLens]
  | fuel + 1, x :: xs => by
    rw [chunkedFuel, List.map_cons, chunkedFuel_lengths fuel (xs.drop 499)]
    simp only [List.length_take, List.length_cons, List.length_drop, chunkLens]
    congr 2

theorem sendLoop_all_ok (send : List String → Except String SendResponse)
    (r : List String → SendResponse) (h : ∀ b, send b = .ok (r b)) :
    ∀ (bs : List (List String)) (s f : Nat),
      sendLoop send bs s f =
        (.ok (s + (bs.map (fun b => (r b).successCount)).sum,
              f + (bs.map (fun b => (r b).failureCount)).sum), bs.length) := by
  intro bs
  induction bs with
  | nil => intro s f; simp [sendLoop]
  | cons b rest ih =>
    intro s f
    rw [sendLoop, h b]
    simp [ih, Nat.add_assoc]

/-- Counterexample for C2: dispatching 1,200 tokens with a send oracle
whose very first multicast call throws performs exactly one of the
three batch sends — the thrown exception aborts the remaining batches
and propagates instead of being absorbed into the counts. -/
theorem sendLoop_throw_aborts :
    (chunked ((List.range 1200).map Nat.repr)).length = 3 ∧
    (sendLoop (fun _ => .error "network down")
      (chunked ((List.range 1200).map Nat.repr)) 0 0).2 = 1 ∧
    (sendLoop (fun _ => .error "network down")
      (chunked ((List.range 1200).map Nat.repr)) 0 0).1 = .error "network down" :=
  ⟨rfl, rfl, rfl⟩

/-- C2 (amended): the deduplicated token list is split into consecutive
batches of at most 500 whose concatenation is the original list (so
1,200 tokens give batches of 500, 500 and 200); the batches are sent
sequentially and, when every multicast call returns a response, the
success and failure counts of all batches are summed — but a thrown
send aborts the remaining batches (see the counterexample). -/
theorem dispatch_batching_amended (send : List String → Except String SendResponse)
    (r : List String → SendResponse) (tokens : List String)
    (h : ∀ b, send b = .ok (r b)) :
    (∀ b ∈ chunked tokens, b.length ≤ 500) ∧
    (chunked tokens).flatten = tokens ∧
    (tokens.length = 1200 → (chunked tokens).map List.length = [500, 500, 200]) ∧
    sendLoop send (chunked tokens) 0 0 =
      (.ok (((chunked tokens).map (fun b => (r b).successCount)).sum,
            ((chunked tokens).map (fun b => (r b).failureCount)).sum),
        (chunked tokens).length) := by
  refine ⟨chunkedFuel_length_le tokens.length tokens,
    chunkedFuel_flatten tokens.length tokens (Nat.le_refl _), ?_, ?_⟩
  · intro h1200
    show (chunkedFuel tokens.length tokens).map List.length = [500, 500, 200]
    rw [chunkedFuel_lengths, h1200]
    rfl
  · have := sendLoop_all_ok send r h (chunked tokens) 0 0
    simpa using this

/-- Witness for the amended C2: two tokens in one batch, an oracle
reporting one success and one failure, summed over the single batch. -/
theorem dispatch_batching_amended_witness :
    sendLoop (fun _ => .ok ⟨1, 1⟩) (chunked ["a", "b"]) 0 0 =
      (.ok (((chunked ["a", "b"]).map
          (fun b => ((fun (_ : List String) => (⟨1, 1⟩ : SendResponse)) b).successCount)).sum,
        ((chunked ["a", "b"]).map
          (fun b => ((fun (_ : List String) => (⟨1, 1⟩ : SendResponse)) b).failureCount)).sum),
        (chunked ["a", "b"]).length) :=
  (dispatch_batching_amended (fun _ => .ok ⟨1, 1⟩)
    (fun _ => ⟨1, 1⟩) ["a", "b"] (fun _ => rfl)).2.2.2

/- ## Sweep lemmas for the scheduled-message checker -/

theorem setStatusIn_map_id (msgs : List SchedMsg) (i : String) (s : MsgStatus) :
    (setStatusIn msgs i s).map SchedMsg.id = msgs.map SchedMsg.id := by
  induction msgs with
  | nil => rfl
  | cons m rest ih =>
    by_cases h : m.id = i
    · simp [setStatusIn, h] at ih ⊢
      exact ih
    · simp [setStatusIn, h] at ih ⊢
      exact ih

theorem statusIn_setStatusIn_self (msgs : List SchedMsg) (i : String)
    (s : MsgStatus) (h : i ∈ msgs.map SchedMsg.id) :
    statusIn (setStatusIn msgs i s) i = some s := by
  induction msgs with
  | nil => simp at h
  | cons m rest ih =>
    by_cases hm : m.id = i
    · simp [setStatusIn, statusIn, List.find?, hm]
    · have h2 : i ∈ rest.map SchedMsg.id := by
        rcases List.mem_map.mp h with ⟨m0, hm0, hid0⟩
        rcases List.mem_cons.mp hm0 with rfl | hmem
        · exact absurd hid0 hm
        · exact hid0 ▸ List.mem_map_of_mem _ hmem
      have := ih h2
      simp [setStatusIn, statusIn, List.find?, hm] at this ⊢
      exact this

theorem statusIn_setStatusIn_ne (msgs : List SchedMsg) (i i2 : String)
    (s : MsgStatus) (h : i2 ≠ i) :
    statusIn (setStatusIn msgs i s) i2 = statusIn msgs i2 := by
  induction msgs with
  | nil => rfl
  | cons m rest ih =>
    have hstep : setStatusIn (m :: rest) i s =
        (if m.id = i then { m with status := s } else m) :: setStatusIn rest i s := rfl
    rw [hstep]
    by_cases hm : m.id = i
    · rw [if_pos hm]
      have hne : ¬ m.id = i2 := fun hc => h ((hc ▸ hm : i2 = i))
      unfold statusIn
      rw [List.find?_cons_of_neg _ (by simpa using hne),
        List.find?_cons_of_neg _ (by simpa using hne)]
      exact ih
    · rw [if_neg hm]
      by_cases hm2 : m.id = i2
      · unfold statusIn
        rw [List.find?_cons_of_pos _ (by simpa using hm2),
          List.find?_cons_of_pos _ (by simpa using hm2)]
      · unfold statusIn
        rw [List.find?_cons_of_neg _ (by simpa using hm2),
          List.find?_cons_of_neg _ (by simpa using hm2)]
        exact ih

/-- Case analysis of a single scheduled dispatch: it either propagates
the thrown error of the batch loop, or writes the terminal status
described by `scheduledOutcome` onto the message. -/
theorem sendScheduledMessage_eq
    (send : String → List String → Except String SendResponse)
    (st : OwnerMsgStore) (message target messageId : String) :
    sendScheduledMessage send st message target messageId =
      (match scheduledOutcome send st.users st.regularUsers message target with
      | .failed e => .error e
      | s =>
        .ok { st with
          scheduledMessages := setStatusIn st.scheduledMessages messageId s }) := by
  unfold sendScheduledMessage scheduledOutcome
  by_cases hemp : (tokensForTarget st.users st.regularUsers target).isEmpty
  · simp [hemp]
  · rcases hsl : sendLoop (send message)
        (chunked (tokensForTarget st.users st.regularUsers target)) 0 0
      with ⟨res, n⟩
    cases res with
    | ok counts =>
      rcases counts with ⟨s, f⟩
      simp [hemp, hsl]
    | error e => simp [hemp, hsl]

theorem sweepStep_guests
    (send : String → List String → Except String SendResponse)
    (st : OwnerMsgStore) (m : SchedMsg) :
    (sweepStep send st m).users = st.users ∧
    (sweepStep send st m).regularUsers = st.regularUsers := by
  unfold sweepStep
  rw [sendScheduledMessage_eq]
  rcases scheduledOutcome send st.users st.regularUsers m.message m.target
    with _ | c | e <;> simp

theorem sweepStep_map_id
    (send : String → List String → Except String SendResponse)
    (st : OwnerMsgStore) (m : SchedMsg) :
    (sweepStep send st m).scheduledMessages.map SchedMsg.id =
      st.scheduledMessages.map SchedMsg.id := by
  unfold sweepStep
  rw [sendScheduledMessage_eq]
  rcases scheduledOutcome send st.users st.regularUsers m.message m.target
    with _ | c | e <;> simp [setStatusIn_map_id]

theorem sweepStep_status_self
    (send : String → List String → Except String SendResponse)
    (st : OwnerMsgStore) (m : SchedMsg)
    (h : m.id ∈ st.scheduledMessages.map SchedMsg.id) :
    statusIn (sweepStep send st m).scheduledMessages m.id =
      some (scheduledOutcome send st.users st.regularUsers m.message m.target) := by
  unfold sweepStep
  rw [sendScheduledMessage_eq]
  rcases hoc : scheduledOutcome send st.users st.regularUsers m.message m.target
      with _ | c | e <;>
    simp <;> exact statusIn_setStatusIn_self _ _ _ h

theorem sweepStep_status_ne
    (send : String → List String → Except String SendResponse)
    (st : OwnerMsgStore) (m : SchedMsg) (i : String) (h : i ≠ m.id) :
    statusIn (sweepStep send st m).scheduledMessages i =
      statusIn st.scheduledMessages i := by
  unfold sweepStep
  rw [sendScheduledMessage_eq]
  rcases scheduledOutcome send st.users st.regularUsers m.message m.target
      with _ | c | e <;>
    simp <;> exact statusIn_setStatusIn_ne _ _ _ _ h

theorem foldl_sweepStep_status_ne
    (send : String → List String → Except String SendResponse) :
    ∀ (sel : List SchedMsg) (st : OwnerMsgStore) (i : String),
      (∀ m ∈ sel, m.id ≠ i) →
      statusIn ((sel.foldl (sweepStep send) st)).scheduledMessages i =
        statusIn st.scheduledMessages i := by
  intro sel
  induction sel with
  | nil => intro st i _; rfl
  | cons m rest ih =>
    intro st i h
    rw [List.foldl_cons,
      ih (sweepStep send st m) i (fun m2 hm2 => h m2 (List.mem_cons_of_mem _ hm2)),
      sweepStep_status_ne send st m i (h m (List.mem_cons_self _ _)).symm]

theorem foldl_sweepStep_guests
    (send : String → List String → Except String SendResponse) :
    ∀ (sel : List SchedMsg) (st : OwnerMsgStore),
      ((sel.foldl (sweepStep send) st)).users = st.users ∧
      ((sel.foldl (sweepStep send) st)).regularUsers = st.regularUsers := by
  intro sel
  induction sel with
  | nil => intro st; exact ⟨rfl, rfl⟩
  | cons m rest ih =>
    intro st
    rw [List.foldl_cons]
    rcases ih (sweepStep send st m) with ⟨h1, h2⟩
    rcases sweepStep_guests send st m with ⟨h3, h4⟩
    exact ⟨h1.trans h3, h2.trans h4⟩

theorem sweep_fold_spec
    (send : String → List String → Except String SendResponse) :
    ∀ (sel : List SchedMsg) (st : OwnerMsgStore),
      (sel.map SchedMsg.id).Nodup →
      (∀ m ∈ sel, m.id ∈ st.scheduledMessages.map SchedMsg.id) →
      ∀ m ∈ sel,
        statusIn ((sel.foldl (sweepStep send) st)).scheduledMessages m.id =
          some (scheduledOutcome send st.users st.regularUsers m.message m.target) := by
  intro sel
  induction sel with
  | nil => intro st _ _ m hm; simp at hm
  | cons m0 rest ih =>
    intro st hnd hmem m hm
    rw [List.foldl_cons]
    have hnd2 : (∀ x ∈ rest, ¬ x.id = m0.id) ∧ (rest.map SchedMsg.id).Nodup := by
      simpa using hnd
    rcases List.mem_cons.mp hm with heq | hm2
    · subst heq
      have hrest : ∀ m2 ∈ rest, m2.id ≠ m.id := fun m2 hm3 => hnd2.1 m2 hm3
      rw [foldl_sweepStep_status_ne send rest (sweepStep send st m) m.id hrest,
        sweepStep_status_self send st m (hmem m (List.mem_cons_self _ _))]
    · have hguests := sweepStep_guests send st m0
      have hids := sweepStep_map_id send st m0
      have := ih (sweepStep send st m0) hnd2.2
        (fun m2 hm3 => hids ▸ hmem m2 (List.mem_cons_of_mem _ hm3)) m hm2
      rw [hguests.1, hguests.2] at this
      exact this

/-- C3: in the pending-message sweep, every selected pending message
ends in a terminal status — `failed` with the caught error text when
its dispatch throws, `sent` otherwise (with counts, or without counts
when the resolved token set is empty) — and the processing of one
message never prevents the siblings from being processed. -/
theorem sweep_terminal_statuses
    (send : String → List String → Except String SendResponse)
    (now : Int) (store : OwnerMsgStore)
    (hnd : (store.scheduledMessages.map SchedMsg.id).Nodup)
    (m : SchedMsg) (hm : m ∈ pendingSelection now store) :
    statusIn (sweepOwner send now store).scheduledMessages m.id =
      some (scheduledOutcome send store.users store.regularUsers
        m.message m.target) := by
  have hsub : (pendingSelection now store).Sublist store.scheduledMessages :=
    (List.take_sublist _ _).trans (List.filter_sublist _)
  have hnd2 : ((pendingSelection now store).map SchedMsg.id).Nodup :=
    List.Nodup.sublist (hsub.map SchedMsg.id) hnd
  have hmem : ∀ m2 ∈ pendingSelection now store,
      m2.id ∈ store.scheduledMessages.map SchedMsg.id :=
    fun m2 hm2 => List.mem_map_of_mem _ (hsub.subset hm2)
  exact sweep_fold_spec send (pendingSelection now store) store hnd2 hmem m hm

/-- Witness for C3: with a send oracle that always throws, the sweep
sets the first message (with reachable tokens) to `failed` and still
processes the second message, whose empty `premium` token pool makes it
`sent`; the witness instantiates the theorem at the second message. -/
theorem sweep_terminal_statuses_witness :
    statusIn (sweepOwner (fun _ _ => .error "boom") 5
        ⟨[⟨some "tokA", none⟩], [],
          [⟨"m1", "hello", "normal", 0, .pending⟩,
           ⟨"m2", "hi", "premium", 0, .pending⟩]⟩).scheduledMessages "m2" =
      some (scheduledOutcome (fun _ _ => .error "boom")
        [⟨some "tokA", none⟩] [] "hi" "premium") ∧
    scheduledOutcome (fun _ _ => .error "boom")
        [⟨some "tokA", none⟩] [] "hi" "premium" = .sent none ∧
    statusIn (sweepOwner (fun _ _ => .error "boom") 5
        ⟨[⟨some "tokA", none⟩], [],
          [⟨"m1", "hello", "normal", 0, .pending⟩,
           ⟨"m2", "hi", "premium", 0, .pending⟩]⟩).scheduledMessages "m1" =
      some (.failed "boom") :=
  ⟨sweep_terminal_statuses (fun _ _ => .error "boom") 5
      ⟨[⟨some "tokA", none⟩], [],
        [⟨"m1", "hello", "normal", 0, .pending⟩,
         ⟨"m2", "hi", "premium", 0, .pending⟩]⟩
      (by decide) ⟨"m2", "hi", "premium", 0, .pending⟩ (by decide),
    rfl, rfl⟩

end FoodeePicker
